import Mathlib

/-!
Shallow embedding of `src/app.py` ("Threads Keyword Search Web App"):
the retrying HTTP client `_get`, the time normalizer `_to_unix`, the
query builder of `keyword_search`, the `search_and_filter` pipeline and
the CSV writing of `api_export`.  JSON values arriving from the upstream
API are modelled by `JVal` (null / integer / string), a post item by an
association list of fields, and the two network effects (the search
response and the per-item detail calls of `get_post_fields`) by explicit
parameters, so that every definition is an executable function.
-/

namespace ThreadsApp

/-- JSON-ish field values of an upstream post record: Python `None`,
an integer, or a string. -/
inductive JVal : Type where
  | jnull : JVal
  | jint (n : Int) : JVal
  | jstr (s : String) : JVal
  deriving DecidableEq, Repr

/-- A post record (`Dict[str, Any]` in the source), as an association
list in insertion order, first binding of a key wins on lookup. -/
abbrev Item := List (String × JVal)

/-- Lookup of a key in an item: `some v` when the key is present (its
stored value may be `jnull`), `none` when the key is absent. -/
def jget? (it : Item) (k : String) : Option JVal :=
  (it.find? (fun p => p.1 = k)).map Prod.snd

/-- Python `k in item`: key presence, regardless of the stored value. -/
def hasKey (it : Item) (k : String) : Bool :=
  (jget? it k).isSome

/-- Python `item.get(k)`: the stored value, with an absent key and a
stored `None` both read as `None`. -/
def pyGetVal (it : Item) (k : String) : JVal :=
  (jget? it k).getD .jnull

/-- Set one key of an item the way `dict` assignment does: overwrite in
place when the key is present, append otherwise. -/
def jset (it : Item) (k : String) (v : JVal) : Item :=
  if hasKey it k then
    it.map (fun p => if p.1 = k then (k, v) else p)
  else
    it ++ [(k, v)]

/-- Python `item.update(detail)`: fold `jset` over the detail record. -/
def jupdate (it : Item) (detail : Item) : Item :=
  detail.foldl (fun acc p => jset acc p.1 p.2) it

/-- Python truthiness of a `JVal`: `None`, `0` and `""` are falsy. -/
def truthy : JVal → Bool
  | .jnull => false
  | .jint n => n ≠ 0
  | .jstr s => s ≠ ""

/-- Python `a or b` on field values. -/
def pyOr (a b : JVal) : JVal :=
  if truthy a then a else b

/-- Python `v >= m` against an integer: defined for an integer `v`,
a `TypeError` for `None` or a string. -/
def pyGE (v : JVal) (m : Int) : Except String Bool :=
  match v with
  | .jint n => .ok (decide (m ≤ n))
  | _ => .error "TypeError"

/-- The integer a field value stands for once the pipeline's falsy-to-`0`
coercion has applied: an integer itself, everything else `0`. -/
def effVal : JVal → Int
  | .jint n => n
  | _ => 0

/-- One loop body of `search_and_filter` (app.py lines 85-93) for the
item at position `i` of the raw search response: read `like_count`,
run the conditional enrichment, and return the (possibly updated) item
together with the value of the local variable `lk`.  The function
`enrich i` models the outcome of the `get_post_fields` network call for
this item: `.ok detail` when the call returns a detail record, `.error`
when it raises (the source catches every exception). -/
def processItem (enrich : Nat → Except String Item) (i : Nat) (item : Item) :
    Item × JVal :=
  let lk := pyGetVal item "like_count"
  if lk = .jnull ∨ ¬ hasKey item "permalink" then
    match enrich i with
    | .ok detail =>
        let item' := jupdate item detail
        (item', (jget? item' "like_count").getD (.jint 0))
    | .error _ => (item, pyOr lk (.jint 0))
  else
    (item, lk)

/-- The filtering loop of `search_and_filter` (app.py lines 84-95):
process each raw item in order, keep it when `(lk or 0) >= min_likes`;
the comparison raises a `TypeError` (aborting the whole call) when the
effective like-count is a non-empty string. -/
def filterLoop (enrich : Nat → Except String Item) (min_likes : Int) :
    Nat → List Item → Except String (List Item)
  | _, [] => .ok []
  | i, item :: rest =>
      let r := processItem enrich i item
      match pyGE (pyOr r.2 (.jint 0)) min_likes with
      | .error e => .error e
      | .ok true => (filterLoop enrich min_likes (i + 1) rest).map (r.1 :: ·)
      | .ok false => filterLoop enrich min_likes (i + 1) rest

/-- The sort key of app.py line 96: `x.get("like_count", 0)`. -/
def sortKey (it : Item) : JVal :=
  (jget? it "like_count").getD (.jint 0)

/-- The sort key as an integer: its value for an integer key, and `0`
for every other key (absent keys already read as `jint 0`). -/
def likeVal (it : Item) : Int :=
  match sortKey it with
  | .jint n => n
  | _ => 0

/-- The sort key as a string, for the case where every key is a string. -/
def strKey (it : Item) : String :=
  match sortKey it with
  | .jstr s => s
  | _ => ""

def isIntV : JVal → Bool
  | .jint _ => true
  | _ => false

def isStrV : JVal → Bool
  | .jstr _ => true
  | _ => false

/-- Stable descending insertion: `x` is placed before the first element
whose key is not larger, so elements with equal keys keep their
original relative order. -/
def insertByDesc {β : Type} [LinearOrder β] (k : Item → β) (x : Item) :
    List Item → List Item
  | [] => [x]
  | y :: ys => if k x < k y then y :: insertByDesc k x ys else x :: y :: ys

/-- Stable sort, descending by key (the effect of Python's stable
`list.sort(key=..., reverse=True)`). -/
def sortByDesc {β : Type} [LinearOrder β] (k : Item → β) : List Item → List Item
  | [] => []
  | x :: xs => insertByDesc k x (sortByDesc k xs)

/-- The `results.sort(key=lambda x: x.get("like_count", 0), reverse=True)`
of app.py line 96.  Python compares the keys pairwise: with at most one
element no comparison happens; with all keys integers (absent keys read
as `0`) or all keys strings the sort succeeds (stable, descending);
any other key multiset makes some comparison raise a `TypeError`
(`None` is not ordered against anything, strings not against integers). -/
def sortStep (l : List Item) : Except String (List Item) :=
  if l.length ≤ 1 then .ok l
  else if l.all (fun it => isIntV (sortKey it)) then .ok (sortByDesc likeVal l)
  else if l.all (fun it => isStrV (sortKey it)) then .ok (sortByDesc strKey l)
  else .error "TypeError"

/-- app.py lines 82-97, `search_and_filter`, given the raw list returned
by `keyword_search` and the per-item enrichment outcomes: filter with
conditional enrichment, then sort by like-count descending. -/
def search_and_filter (enrich : Nat → Except String Item) (min_likes : Int)
    (raw : List Item) : Except String (List Item) := do
  let kept ← filterLoop enrich min_likes 0 raw
  sortStep kept

/-- Outcome of one `requests.get` attempt inside `_get` (app.py line 47):
a network-level failure (`requests.RequestException`, carrying the
exception's text) or a response with a status code, a body text, and a
parsed JSON payload of type `α`. -/
inductive Outcome (α : Type) : Type where
  | netErr (msg : String) : Outcome α
  | resp (status : Nat) (body : String) (payload : α) : Outcome α

/-- The error raised by `_get`: an `HTTPException(status_code, detail)`. -/
inductive GetErr : Type where
  | http (status : Nat) (detail : String) : GetErr
  deriving DecidableEq, Repr

/-- The retryable statuses of app.py line 50: `(429, 500, 502, 503, 504)`. -/
def retryableStatus (s : Nat) : Bool :=
  s = 429 ∨ s = 500 ∨ s = 502 ∨ s = 503 ∨ s = 504

/-- The retry loop of `_get` (app.py lines 44-59).  `o i` is the outcome
of the HTTP attempt with loop index `i`, `remaining` the attempts left
of the `for attempt in range(3)` budget, `lastExc` the `last_exc`
variable.  The result pairs the returned payload or raised error with
the list of `time.sleep` durations, in seconds. -/
def getLoop {α : Type} (o : Nat → Outcome α) :
    Nat → Nat → Option String → Except GetErr α × List ℚ
  | 0, _, lastExc =>
      match lastExc with
      | some e => (.error (.http 502 ("Threads API 連線失敗: " ++ e)), [])
      | none => (.error (.http 502 "Threads API 連線失敗"), [])
  | remaining + 1, i, lastExc =>
      match o i with
      | .netErr msg =>
          let next := getLoop o remaining (i + 1) (some msg)
          (next.1, (6 / 5 : ℚ) * (i + 1) :: next.2)
      | .resp status body payload =>
          if status = 200 then (.ok payload, [])
          else if retryableStatus status then
            let next := getLoop o remaining (i + 1) lastExc
            (next.1, (3 / 2 : ℚ) * (i + 1) :: next.2)
          else (.error (.http status body), [])

/-- app.py lines 41-59, `_get(url, params)`: up to 3 attempts starting
at loop index 0 with no exception recorded. -/
def _get (α : Type) (o : Nat → Outcome α) : Except GetErr α × List ℚ :=
  getLoop o 3 0 none

/-- Input values accepted by the time normalizer `_to_unix`: Python
`None`, a number (`int` or `float`, modelled as a rational), or a
string. -/
inductive TVal : Type where
  | tnone : TVal
  | tnum (q : ℚ) : TVal
  | tstr (s : String) : TVal

/-- Python `int(...)` on a number: truncation toward zero. -/
def truncQ (q : ℚ) : Int :=
  q.num.tdiv (q.den : Int)

/-- app.py lines 61-66, `_to_unix(ts)`.  The external
`dateutil.parser.parse(...).timestamp()` is modelled by the parameter
`dtparse`, returning `some` seconds for a recognizable date/time string
and `none` when parsing raises. -/
def _to_unix (dtparse : String → Option ℚ) : TVal → Except String Int
  | .tnone => .ok 0
  | .tnum q => .ok (truncQ q)
  | .tstr s =>
      if s = "" then .ok 0
      else
        match dtparse s with
        | some q => .ok (truncQ q)
        | none => .error "ParseError"

/-- The query parameters `keyword_search` sends to the upstream search
endpoint (the `params` dict of app.py line 70). -/
structure SParams : Type where
  q : String
  limit : Int
  since : Option Int
  until' : Option Int
  deriving DecidableEq, Repr

/-- One optional time bound of `keyword_search` (app.py lines 71-74):
`if since: params["since"] = _to_unix(since)` — the parameter is added
only when the argument is truthy (a non-`None`, non-empty string); a
falsy argument (Python `None` or `""`) is skipped; a parse error
propagates. -/
def timeParam (dtparse : String → Option ℚ) :
    Option String → Except String (Option Int)
  | some str =>
      if str = "" then .ok none
      else (_to_unix dtparse (.tstr str)).map some
  | none => .ok none

/-- app.py lines 68-74: the params dict built by `keyword_search(q,
limit, since, until)` — the keyword, the clamped limit, and the two
optional normalized time bounds. -/
def searchParams (dtparse : String → Option ℚ) (q : String) (limit : Int)
    (since until' : Option String) : Except String SParams := do
  let s ← timeParam dtparse since
  let u ← timeParam dtparse until'
  pure { q := q, limit := min 200 (max 1 limit), since := s, until' := u }

/-- app.py line 75: `keyword_search` issues the request through `_get`
and returns the response's `"data"` list, `[]` when the field is absent
(the payload models `response.get("data", [])` as an optional list). -/
def keyword_search (dtparse : String → Option ℚ)
    (net : SParams → Nat → Outcome (Option (List Item))) (q : String) (limit : Int)
    (since until' : Option String) : Except String (Except GetErr (List Item)) := do
  let p ← searchParams dtparse q limit since until'
  pure (((_get (Option (List Item)) (net p)).1).map (fun d => d.getD []))

/-- The fixed CSV column list of app.py line 124. -/
def csvFields : List String :=
  ["id", "permalink", "text", "username", "like_count", "reply_count",
   "repost_count", "created_time"]

/-- Python `csv` minimal quoting: a cell containing the delimiter, the
quote character or a line break is wrapped in double quotes, with inner
quotes doubled. -/
def csvQuote (s : String) : String :=
  if s.data.any (fun c => c = ',' ∨ c = '"' ∨ c = '\n' ∨ c = '\r') then
    "\"" ++ (s.replace "\"" "\"\"") ++ "\""
  else s

/-- The string the `csv` writer emits for one stored field value:
`None` becomes the empty cell, integers their decimal text, strings
themselves. -/
def pyStr : JVal → String
  | .jnull => ""
  | .jint n => toString n
  | .jstr s => s

/-- One cell of a data row: `DictWriter` reads `rowdict.get(field,
restval)` with `restval = ""`, then quotes. -/
def csvCell (row : Item) (f : String) : String :=
  csvQuote (pyStr ((jget? row f).getD (.jstr "")))

/-- One physical CSV row: cells joined by `,`, terminated by `\r\n`. -/
def csvRow (cells : List String) : String :=
  String.intercalate "," cells ++ "\r\n"

/-- The header row written by `writer.writeheader()`. -/
def csvHeader : String :=
  csvRow (csvFields.map csvQuote)

/-- app.py lines 123-128: the CSV text `api_export` builds from the
filtered rows — the header, then one row per post with exactly the 8
fixed columns, extra keys ignored (`extrasaction="ignore"`). -/
def api_export_csv (rows : List Item) : String :=
  csvHeader ++ String.join (rows.map (fun r => csvRow (csvFields.map (csvCell r))))

/-! Concrete inputs used to evaluate the definitions above. -/

/-- An enrichment oracle on which every `get_post_fields` call raises. -/
def enrichAlwaysFails : Nat → Except String Item := fun _ => .error "boom"

/-- A search item whose `like_count` field is present but null. -/
def itemNullLikes : Item :=
  [("id", .jstr "a"), ("like_count", .jnull), ("permalink", .jstr "p")]

/-- A search item with an integer `like_count`. -/
def itemFiveLikes : Item :=
  [("id", .jstr "b"), ("like_count", .jint 5), ("permalink", .jstr "q")]

/-- A search item lacking a permalink, whose `like_count` is the
string `"x"`. -/
def itemStrLikes : Item := [("id", .jstr "c"), ("like_count", .jstr "x")]

/-- An upstream that answers every attempt with HTTP 501. -/
def resp501 : Nat → Outcome Unit := fun _ => .resp 501 "server error" ()

/-- An upstream that answers every attempt with HTTP 503. -/
def resp503 : Nat → Outcome Unit := fun _ => .resp 503 "busy" ()

/-- An upstream on which every attempt fails at the network level. -/
def netErrAll : Nat → Outcome Unit := fun _ => .netErr "conn"

/-- A date parser stub resolving every string to 1704067200 seconds. -/
def dtparseConst : String → Option ℚ := fun _ => some 1704067200

/-! Helper lemmas about the stable descending sort. -/

theorem mem_insertByDesc {β : Type} [LinearOrder β] (k : Item → β) (x a : Item)
    (l : List Item) : a ∈ insertByDesc k x l ↔ a = x ∨ a ∈ l := by
  induction l with
  | nil => simp [insertByDesc]
  | cons y ys ih =>
      by_cases h : k x < k y
      · simp only [insertByDesc, if_pos h, List.mem_cons, ih]
        tauto
      · simp only [insertByDesc, if_neg h, List.mem_cons]

theorem mem_sortByDesc {β : Type} [LinearOrder β] (k : Item → β) (a : Item)
    (l : List Item) : a ∈ sortByDesc k l ↔ a ∈ l := by
  induction l with
  | nil => simp [sortByDesc]
  | cons y ys ih =>
      simp only [sortByDesc, mem_insertByDesc, List.mem_cons, ih]

theorem pairwise_insertByDesc {β : Type} [LinearOrder β] (k : Item → β) (x : Item)
    (l : List Item) (h : l.Pairwise (fun a b => k b ≤ k a)) :
    (insertByDesc k x l).Pairwise (fun a b => k b ≤ k a) := by
  induction l with
  | nil => simp [insertByDesc]
  | cons y ys ih =>
      rcases List.pairwise_cons.mp h with ⟨hy, hys⟩
      by_cases hlt : k x < k y
      · simp only [insertByDesc, if_pos hlt]
        refine List.pairwise_cons.mpr ⟨?_, ih hys⟩
        intro a ha
        rcases (mem_insertByDesc k x a ys).mp ha with rfl | ha
        · exact le_of_lt hlt
        · exact hy a ha
      · simp only [insertByDesc, if_neg hlt]
        refine List.pairwise_cons.mpr ⟨?_, h⟩
        intro a ha
        rcases List.mem_cons.mp ha with rfl | ha
        · exact le_of_not_lt hlt
        · exact le_trans (hy a ha) (le_of_not_lt hlt)

theorem pairwise_sortByDesc {β : Type} [LinearOrder β] (k : Item → β)
    (l : List Item) : (sortByDesc k l).Pairwise (fun a b => k b ≤ k a) := by
  induction l with
  | nil => simp [sortByDesc]
  | cons y ys ih => exact pairwise_insertByDesc k y (sortByDesc k ys) ih

theorem filter_insertByDesc {β : Type} [LinearOrder β] (k : Item → β) (x : Item)
    (l : List Item) (v : β) :
    (insertByDesc k x l).filter (fun it => decide (k it = v)) =
      if k x = v then x :: l.filter (fun it => decide (k it = v))
      else l.filter (fun it => decide (k it = v)) := by
  induction l with
  | nil => by_cases h : k x = v <;> simp [insertByDesc, List.filter, h]
  | cons y ys ih =>
      by_cases hlt : k x < k y
      · simp only [insertByDesc, if_pos hlt]
        by_cases hy : k y = v
        · have hx : ¬ k x = v := by
            intro hx
            rw [hx, ← hy] at hlt
            exact lt_irrefl _ hlt
          simp [List.filter_cons, hy, hx, ih]
        · simp [List.filter_cons, hy, ih]
      · simp only [insertByDesc, if_neg hlt]
        by_cases hx : k x = v <;> simp [List.filter_cons, hx]

theorem filter_sortByDesc {β : Type} [LinearOrder β] (k : Item → β)
    (l : List Item) (v : β) :
    (sortByDesc k l).filter (fun it => decide (k it = v)) =
      l.filter (fun it => decide (k it = v)) := by
  induction l with
  | nil => simp [sortByDesc]
  | cons y ys ih =>
      rw [sortByDesc, filter_insertByDesc]
      by_cases hy : k y = v <;> simp [List.filter_cons, hy, ih]

theorem insertByDesc_const {β : Type} [LinearOrder β] (k : Item → β) (x : Item)
    (l : List Item) (h : ∀ a ∈ l, k a = k x) : insertByDesc k x l = x :: l := by
  cases l with
  | nil => rfl
  | cons y ys =>
      have : k y = k x := h y (by simp)
      simp [insertByDesc, this, lt_irrefl]

theorem sortByDesc_const {β : Type} [LinearOrder β] (k : Item → β) (c : β)
    (l : List Item) (h : ∀ a ∈ l, k a = c) : sortByDesc k l = l := by
  induction l with
  | nil => rfl
  | cons y ys ih =>
      rw [sortByDesc, ih (fun a ha => h a (by simp [ha]))]
      rw [insertByDesc_const]
      intro a ha
      rw [h a (by simp [ha]), h y (by simp)]

/-! Helper lemmas about one pipeline step and the filtering loop. -/

theorem likeVal_eq_effVal_sortKey (it : Item) : likeVal it = effVal (sortKey it) := by
  unfold likeVal effVal
  cases sortKey it <;> rfl

theorem pyGE_or_zero (v : JVal) (m : Int) :
    pyGE (pyOr v (.jint 0)) m = .ok true ↔
      m ≤ effVal v ∧ ∀ s, v = .jstr s → s = "" := by
  cases v with
  | jnull => simp [pyOr, truthy, pyGE, effVal]
  | jint n => by_cases h : n = 0 <;> simp [pyOr, truthy, pyGE, effVal, h]
  | jstr s => by_cases h : s = "" <;> simp [pyOr, truthy, pyGE, effVal, h]

theorem processItem_enrich_ok (e : Nat → Except String Item) (i : Nat) (it d : Item)
    (hcond : pyGetVal it "like_count" = .jnull ∨ ¬ hasKey it "permalink" = true)
    (he : e i = .ok d) :
    processItem e i it =
      (jupdate it d, (jget? (jupdate it d) "like_count").getD (.jint 0)) := by
  simp only [processItem]
  rw [if_pos hcond, he]

theorem processItem_enrich_err (e : Nat → Except String Item) (i : Nat) (it : Item)
    (err : String)
    (hcond : pyGetVal it "like_count" = .jnull ∨ ¬ hasKey it "permalink" = true)
    (he : e i = .error err) :
    processItem e i it = (it, pyOr (pyGetVal it "like_count") (.jint 0)) := by
  simp only [processItem]
  rw [if_pos hcond, he]

theorem processItem_no_enrich (e : Nat → Except String Item) (i : Nat) (it : Item)
    (hcond : ¬ (pyGetVal it "like_count" = .jnull ∨ ¬ hasKey it "permalink" = true)) :
    processItem e i it = (it, pyGetVal it "like_count") := by
  simp only [processItem]
  rw [if_neg hcond]

theorem processItem_spec (e : Nat → Except String Item) (i : Nat) (it : Item) :
    effVal (processItem e i it).2 = likeVal (processItem e i it).1 ∧
      ∀ s, s ≠ "" → sortKey (processItem e i it).1 = .jstr s →
        (processItem e i it).2 = .jstr s := by
  by_cases hcond : pyGetVal it "like_count" = .jnull ∨ ¬ hasKey it "permalink" = true
  · cases he : e i with
    | ok detail =>
        rw [processItem_enrich_ok e i it detail hcond he]
        exact ⟨(likeVal_eq_effVal_sortKey _).symm, fun s _ hk => hk⟩
    | error err =>
        rw [processItem_enrich_err e i it err hcond he]
        cases hq : jget? it "like_count" with
        | none =>
            constructor
            · simp [pyGetVal, hq, pyOr, truthy, effVal, likeVal_eq_effVal_sortKey,
                sortKey]
            · intro s hs hk
              simp [sortKey, hq] at hk
        | some v =>
            cases v with
            | jnull =>
                constructor
                · simp [pyGetVal, hq, pyOr, truthy, effVal,
                    likeVal_eq_effVal_sortKey, sortKey]
                · intro s hs hk
                  simp [sortKey, hq] at hk
            | jint n =>
                constructor
                · by_cases h0 : n = 0 <;>
                    simp [pyGetVal, hq, pyOr, truthy, effVal,
                      likeVal_eq_effVal_sortKey, sortKey, h0]
                · intro s hs hk
                  simp [sortKey, hq] at hk
            | jstr s0 =>
                constructor
                · by_cases h0 : s0 = "" <;>
                    simp [pyGetVal, hq, pyOr, truthy, effVal,
                      likeVal_eq_effVal_sortKey, sortKey, h0]
                · intro s hs hk
                  simp only [sortKey, hq, Option.getD_some] at hk
                  cases hk
                  simp [pyGetVal, hq, pyOr, truthy, hs]
  · rw [processItem_no_enrich e i it hcond]
    push_neg at hcond
    cases hq : jget? it "like_count" with
    | none =>
        exact absurd (by simp [pyGetVal, hq]) hcond.1
    | some v =>
        constructor
        · simp [pyGetVal, hq, likeVal_eq_effVal_sortKey, sortKey]
        · intro s hs hk
          simp only [sortKey, hq, Option.getD_some] at hk
          simp [pyGetVal, hq, hk]

theorem filterLoop_mem (e : Nat → Except String Item) (m : Int) :
    ∀ (raw : List Item) (i : Nat) (kept : List Item),
      filterLoop e m i raw = .ok kept →
      ∀ it ∈ kept, m ≤ likeVal it ∧ ∀ s, sortKey it = .jstr s → s = "" := by
  intro raw
  induction raw with
  | nil =>
      intro i kept h it hit
      simp only [filterLoop] at h
      cases h
      simp at hit
  | cons item rest ih =>
      intro i kept h it hit
      simp only [filterLoop] at h
      cases hge : pyGE (pyOr (processItem e i item).2 (.jint 0)) m with
      | error err => rw [hge] at h; exact absurd h (by simp)
      | ok b =>
          rw [hge] at h
          cases b with
          | false => exact ih (i + 1) kept h it hit
          | true =>
              cases hrest : filterLoop e m (i + 1) rest with
              | error err => rw [hrest] at h; exact absurd h (by simp [Except.map])
              | ok kept' =>
                  rw [hrest] at h
                  simp only [Except.map, Except.ok.injEq] at h
                  subst h
                  rcases List.mem_cons.mp hit with rfl | hit'
                  · rcases (pyGE_or_zero _ m).mp hge with ⟨hle, hstr⟩
                    rcases processItem_spec e i item with ⟨heff, hkey⟩
                    refine ⟨heff ▸ hle, ?_⟩
                    intro s hk
                    by_contra hne
                    exact hne (hstr s (hkey s hne hk))
                  · exact ih (i + 1) kept' hrest it hit'

theorem pairwise_of_forall_mem {R : Item → Item → Prop} :
    ∀ (l : List Item), (∀ a ∈ l, ∀ b ∈ l, R a b) → l.Pairwise R := by
  intro l
  induction l with
  | nil => intro _; exact List.Pairwise.nil
  | cons x xs ih =>
      intro h
      refine List.pairwise_cons.mpr ⟨?_, ?_⟩
      · intro b hb
        exact h x (by simp) b (by simp [hb])
      · exact ih (fun a ha b hb => h a (by simp [ha]) b (by simp [hb]))

theorem sortStep_mem (l out : List Item) (h : sortStep l = .ok out) :
    ∀ it ∈ out, it ∈ l := by
  unfold sortStep at h
  split at h
  · cases h; exact fun it hit => hit
  · split at h
    · cases h
      exact fun it hit => (mem_sortByDesc likeVal it l).mp hit
    · split at h
      · cases h
        exact fun it hit => (mem_sortByDesc strKey it l).mp hit
      · exact absurd h (by simp)

theorem sortStep_sorted_stable (l out : List Item) (h : sortStep l = .ok out)
    (hgood : ∀ it ∈ l, ∀ s, sortKey it = .jstr s → s = "") :
    out.Pairwise (fun a b => likeVal b ≤ likeVal a) ∧
      ∀ v : Int, out.filter (fun it => decide (likeVal it = v)) =
        l.filter (fun it => decide (likeVal it = v)) := by
  unfold sortStep at h
  split at h
  · rename_i hlen
    cases h
    constructor
    · match l, hlen with
      | [], _ => exact List.Pairwise.nil
      | [x], _ => exact List.pairwise_singleton _ x
    · intro v; rfl
  · split at h
    · cases h
      exact ⟨pairwise_sortByDesc likeVal l, filter_sortByDesc likeVal l⟩
    · split at h
      · rename_i hallstr
        cases h
        have hkeys : ∀ a ∈ l, strKey a = "" := by
          intro a ha
          have hstr := List.all_eq_true.mp hallstr a ha
          cases hv : sortKey a with
          | jstr s =>
              have : s = "" := hgood a ha s hv
              simp [strKey, hv, this]
          | jnull => simp [isStrV, hv] at hstr
          | jint n => simp [isStrV, hv] at hstr
        have hzero : ∀ a ∈ l, likeVal a = 0 := by
          intro a ha
          have hstr := List.all_eq_true.mp hallstr a ha
          cases hv : sortKey a with
          | jstr s => simp [likeVal_eq_effVal_sortKey, hv, effVal]
          | jnull => simp [isStrV, hv] at hstr
          | jint n => simp [isStrV, hv] at hstr
        rw [sortByDesc_const strKey "" l hkeys]
        constructor
        · exact pairwise_of_forall_mem l
            (fun a ha b hb => by rw [hzero a ha, hzero b hb])
        · intro v; rfl
      · exact absurd h (by simp)

theorem search_and_filter_eq (e : Nat → Except String Item) (m : Int)
    (raw : List Item) :
    search_and_filter e m raw =
      match filterLoop e m 0 raw with
      | .error err => .error err
      | .ok kept => sortStep kept := by
  unfold search_and_filter
  cases filterLoop e m 0 raw <;> rfl

/-! The claims. -/

/-- C1: every item in a normally returned `search_and_filter` result has
an effective like-count (its integer value, `0` for an absent, null or
otherwise falsy value) at least `min_likes`. -/
theorem C1_min_likes_invariant (e : Nat → Except String Item) (m : Int)
    (raw out : List Item) (h : search_and_filter e m raw = .ok out) :
    ∀ it ∈ out, m ≤ likeVal it := by
  rw [search_and_filter_eq] at h
  cases hk : filterLoop e m 0 raw with
  | error err => rw [hk] at h; exact absurd h (by simp)
  | ok kept =>
      rw [hk] at h
      intro it hit
      have hmem := sortStep_mem kept out h it hit
      exact (filterLoop_mem e m raw 0 kept hk it hmem).1

theorem C1_min_likes_invariant_witness :
    10 ≤ likeVal itemFiveLikes ∨ 3 ≤ likeVal itemFiveLikes :=
  Or.inr
    (C1_min_likes_invariant enrichAlwaysFails 3 [itemFiveLikes] [itemFiveLikes]
      rfl itemFiveLikes (by decide))

/-- C2: a normally returned `search_and_filter` result is sorted by
effective like-count descending (non-increasing along the sequence),
and the sort is stable: for every like-count value, the items carrying
it appear in the same relative order as in the list the filtering loop
kept, which itself processes the upstream search response in order. -/
theorem C2_sorted_descending_stable (e : Nat → Except String Item) (m : Int)
    (raw out : List Item) (h : search_and_filter e m raw = .ok out) :
    out.Pairwise (fun a b => likeVal b ≤ likeVal a) ∧
      ∃ kept, filterLoop e m 0 raw = .ok kept ∧
        ∀ v : Int, out.filter (fun it => decide (likeVal it = v)) =
          kept.filter (fun it => decide (likeVal it = v)) := by
  rw [search_and_filter_eq] at h
  cases hk : filterLoop e m 0 raw with
  | error err => rw [hk] at h; exact absurd h (by simp)
  | ok kept =>
      rw [hk] at h
      have hgood : ∀ it ∈ kept, ∀ s, sortKey it = .jstr s → s = "" :=
        fun it hit => (filterLoop_mem e m raw 0 kept hk it hit).2
      rcases sortStep_sorted_stable kept out h hgood with ⟨hpair, hfil⟩
      exact ⟨hpair, kept, rfl, hfil⟩

theorem C2_sorted_descending_stable_witness :
    ([itemFiveLikes] : List Item).Pairwise (fun a b => likeVal b ≤ likeVal a) :=
  (C2_sorted_descending_stable enrichAlwaysFails 3 [itemFiveLikes] [itemFiveLikes]
    rfl).1

/-- C3: when the enrichment call for an item raises, the failure is
swallowed: provided the item's stored `like_count` fits the Post data
model (an optional integer, possibly null), the item proceeds unchanged
with its like-count read as the pre-existing integer if present and `0`
otherwise, it is kept exactly when that value passes the `min_likes`
filter, and the loop continues over the remaining items. -/
theorem C3_enrichment_failure_swallowed (e : Nat → Except String Item) (m : Int)
    (i : Nat) (item : Item) (rest : List Item) (err : String)
    (hneed : pyGetVal item "like_count" = .jnull ∨ ¬ hasKey item "permalink" = true)
    (hfail : e i = .error err)
    (hshape : jget? item "like_count" = none ∨
      jget? item "like_count" = some .jnull ∨
      ∃ n : Int, jget? item "like_count" = some (.jint n)) :
    filterLoop e m i (item :: rest) =
      if m ≤ likeVal item then (filterLoop e m (i + 1) rest).map (item :: ·)
      else filterLoop e m (i + 1) rest := by
  simp only [filterLoop]
  rw [processItem_enrich_err e i item err hneed hfail]
  have hkey : pyGE (pyOr (pyOr (pyGetVal item "like_count") (.jint 0)) (.jint 0)) m =
      .ok (decide (m ≤ likeVal item)) := by
    rcases hshape with hq | hq | ⟨n, hq⟩
    · simp [pyGetVal, hq, pyOr, truthy, pyGE, likeVal_eq_effVal_sortKey, sortKey,
        effVal]
    · simp [pyGetVal, hq, pyOr, truthy, pyGE, likeVal_eq_effVal_sortKey, sortKey,
        effVal]
    · by_cases h0 : n = 0 <;>
        simp [pyGetVal, hq, pyOr, truthy, pyGE, likeVal_eq_effVal_sortKey, sortKey,
          effVal, h0]
  rw [hkey]
  by_cases hm : m ≤ likeVal item <;> simp [hm]

theorem C3_enrichment_failure_swallowed_witness :
    filterLoop enrichAlwaysFails 0 0 [itemNullLikes, itemFiveLikes] =
      (filterLoop enrichAlwaysFails 0 1 [itemFiveLikes]).map (itemNullLikes :: ·) := by
  have h := C3_enrichment_failure_swallowed enrichAlwaysFails 0 0 itemNullLikes
    [itemFiveLikes] "boom" (Or.inl (by decide)) rfl (Or.inr (Or.inl (by decide)))
  rw [h, if_pos (by decide : (0 : Int) ≤ likeVal itemNullLikes)]

/-- C10: the claim that the final sort of `search_and_filter` never hits
an undefined key comparison fails on the code: an item whose
`like_count` is present but null and whose enrichment call raises is
kept with the null still stored, and sorting it alongside an item with
an integer like-count compares `None` with an `int`, a `TypeError`; the
whole call raises instead of returning. -/
theorem C10_null_key_sort_type_error :
    filterLoop enrichAlwaysFails 0 0 [itemNullLikes, itemFiveLikes] =
      .ok [itemNullLikes, itemFiveLikes] ∧
    search_and_filter enrichAlwaysFails 0 [itemNullLikes, itemFiveLikes] =
      .error "TypeError" := by
  constructor <;> rfl

theorem retryable_ne_200 (s : Nat) (h : retryableStatus s = true) : s ≠ 200 := by
  intro hs
  subst hs
  exact absurd h (by decide)

theorem getLoop_congr (α : Type) (o o' : Nat → Outcome α) :
    ∀ (r i : Nat) (le : Option String),
      (∀ j, j < r → o (i + j) = o' (i + j)) →
      getLoop o r i le = getLoop o' r i le := by
  intro r
  induction r with
  | zero => intro i le _; rfl
  | succ n ih =>
      intro i le h
      have h0 : o i = o' i := by simpa using h 0 n.succ_pos
      have hrec : ∀ le' : Option String,
          getLoop o n (i + 1) le' = getLoop o' n (i + 1) le' := by
        intro le'
        apply ih
        intro j hj
        have heq : i + 1 + j = i + (j + 1) := by omega
        rw [heq]
        exact h (j + 1) (Nat.succ_lt_succ hj)
      simp only [getLoop, h0]
      cases o' i with
      | netErr msg => simp [hrec]
      | resp s b p =>
          by_cases h200 : s = 200
          · simp [h200]
          · by_cases hr : retryableStatus s = true
            · simp [h200, hr, hrec le]
            · simp [h200, hr]

/-- C4 (amended): for a non-200 upstream response, a status in the
source's retry tuple `(429, 500, 502, 503, 504)` makes the client sleep
`1.5 × (attemptIndex + 1)` seconds and move to the next attempt, while
every other status — other 5xx statuses such as 501 included — fails
immediately, with no retry, carrying the status code and body text. -/
theorem C4_non_200_handling (α : Type) (o : Nat → Outcome α)
    (remaining i : Nat) (lastExc : Option String) (s : Nat) (body : String)
    (p : α) (hresp : o i = .resp s body p) (hs : s ≠ 200) :
    (retryableStatus s = true →
      getLoop o (remaining + 1) i lastExc =
        ((getLoop o remaining (i + 1) lastExc).1,
          (3 / 2 : ℚ) * (i + 1) :: (getLoop o remaining (i + 1) lastExc).2)) ∧
    (retryableStatus s = false →
      getLoop o (remaining + 1) i lastExc = (.error (.http s body), [])) := by
  constructor <;> intro hr <;> simp [getLoop, hresp, hs, hr]

theorem C4_non_200_handling_witness :
    getLoop resp503 (2 + 1) 0 none =
      ((getLoop resp503 2 (0 + 1) none).1,
        (3 / 2 : ℚ) * (0 + 1) :: (getLoop resp503 2 (0 + 1) none).2) :=
  (C4_non_200_handling Unit resp503 2 0 none 503 "busy" () rfl (by decide)).1
    (by decide)

/-- C4's original wording fails on the code: HTTP 501 is a 5xx status,
yet `_get` raises immediately with status 501 and the body text, making
no further attempt and sleeping zero times. -/
theorem C4_counterexample_501_not_retried :
    (500 ≤ 501 ∧ 501 < 600 ∧ retryableStatus 501 = false) ∧
      _get Unit resp501 = (.error (.http 501 "server error"), []) := by
  exact ⟨by decide, rfl⟩

/-- C5: `_get` makes at most 3 attempts (its outcome depends only on the
first three attempt outcomes); when all three attempts end in network
failures it raises the 502 gateway error wrapping the text of the last
exception; when all three attempts are consumed by retryable statuses
without a network exception it falls through to the same generic 502
gateway failure, with no distinct exhausted-retryable-status error. -/
theorem C5_attempt_budget_and_exhaustion (α : Type) :
    (∀ o o' : Nat → Outcome α, o 0 = o' 0 → o 1 = o' 1 → o 2 = o' 2 →
      _get α o = _get α o') ∧
    (∀ (o : Nat → Outcome α) (m0 m1 m2 : String),
      o 0 = .netErr m0 → o 1 = .netErr m1 → o 2 = .netErr m2 →
      (_get α o).1 = .error (.http 502 ("Threads API 連線失敗: " ++ m2))) ∧
    (∀ (o : Nat → Outcome α) (s0 s1 s2 : Nat) (b0 b1 b2 : String) (p0 p1 p2 : α),
      o 0 = .resp s0 b0 p0 → o 1 = .resp s1 b1 p1 → o 2 = .resp s2 b2 p2 →
      retryableStatus s0 = true → retryableStatus s1 = true →
      retryableStatus s2 = true →
      (_get α o).1 = .error (.http 502 "Threads API 連線失敗")) := by
  refine ⟨?_, ?_, ?_⟩
  · intro o o' h0 h1 h2
    unfold _get
    apply getLoop_congr
    intro j hj
    interval_cases j <;> simpa
  · intro o m0 m1 m2 h0 h1 h2
    simp [_get, getLoop, h0, h1, h2]
  · intro o s0 s1 s2 b0 b1 b2 p0 p1 p2 h0 h1 h2 hr0 hr1 hr2
    simp [_get, getLoop, h0, h1, h2, retryable_ne_200 s0 hr0,
      retryable_ne_200 s1 hr1, retryable_ne_200 s2 hr2, hr0, hr1, hr2]

theorem C5_attempt_budget_and_exhaustion_witness :
    (_get Unit netErrAll).1 =
      .error (.http 502 ("Threads API 連線失敗: " ++ "conn")) :=
  (C5_attempt_budget_and_exhaustion Unit).2.1 netErrAll "conn" "conn" "conn"
    rfl rfl rfl

theorem searchParams_eq (dtparse : String → Option ℚ) (q : String) (limit : Int)
    (since until' : Option String) :
    searchParams dtparse q limit since until' =
      match timeParam dtparse since with
      | .error e => .error e
      | .ok s =>
          match timeParam dtparse until' with
          | .error e => .error e
          | .ok u =>
              .ok { q := q, limit := min 200 (max 1 limit), since := s,
                    until' := u } := by
  unfold searchParams
  cases timeParam dtparse since <;> cases timeParam dtparse until' <;> rfl

theorem searchParams_ok_fields (dtparse : String → Option ℚ) (q : String)
    (limit : Int) (since until' : Option String) (p : SParams)
    (h : searchParams dtparse q limit since until' = .ok p) :
    p.q = q ∧ p.limit = min 200 (max 1 limit) ∧
      timeParam dtparse since = .ok p.since ∧
      timeParam dtparse until' = .ok p.until' := by
  rw [searchParams_eq] at h
  cases hs : timeParam dtparse since with
  | error e => rw [hs] at h; exact absurd h (by simp)
  | ok s =>
      rw [hs] at h
      cases hu : timeParam dtparse until' with
      | error e => rw [hu] at h; exact absurd h (by simp)
      | ok u =>
          rw [hu] at h
          simp only [Except.ok.injEq] at h
          subst h
          exact ⟨rfl, rfl, rfl, rfl⟩

/-- C6: the `limit` sent upstream by `keyword_search` is the caller's
value clamped into [1, 200]: below 1 becomes 1, above 200 becomes 200,
in-range values pass through unchanged. -/
theorem C6_limit_clamped (dtparse : String → Option ℚ) (q : String)
    (limit : Int) (since until' : Option String) (p : SParams)
    (h : searchParams dtparse q limit since until' = .ok p) :
    (limit < 1 → p.limit = 1) ∧ (200 < limit → p.limit = 200) ∧
      (1 ≤ limit → limit ≤ 200 → p.limit = limit) := by
  have hl := (searchParams_ok_fields dtparse q limit since until' p h).2.1
  rw [hl]
  refine ⟨fun h1 => ?_, fun h1 => ?_, fun h1 h2 => ?_⟩ <;> omega

theorem C6_limit_clamped_witness :
    ({ q := "kw", limit := 200, since := none, until' := none } : SParams).limit =
      200 :=
  (C6_limit_clamped dtparseConst "kw" 500 none none
    { q := "kw", limit := 200, since := none, until' := none } rfl).2.1 (by decide)

/-- C7: the time normalizer maps `None` and `""` to 0, truncates any
numeric input to its integer part (so `normalize(1700000000)` is
`1700000000`), and parses any other string as a date/time expression,
returning its Unix seconds, with a parse error exactly when the parser
does not recognize the string. -/
theorem C7_to_unix_normalizer (dtparse : String → Option ℚ) :
    _to_unix dtparse .tnone = .ok 0 ∧
    _to_unix dtparse (.tstr "") = .ok 0 ∧
    (∀ q : ℚ, _to_unix dtparse (.tnum q) = .ok (truncQ q)) ∧
    _to_unix dtparse (.tnum 1700000000) = .ok 1700000000 ∧
    (∀ s t, s ≠ "" → dtparse s = some t →
      _to_unix dtparse (.tstr s) = .ok (truncQ t)) ∧
    (∀ s, s ≠ "" → dtparse s = none →
      _to_unix dtparse (.tstr s) = .error "ParseError") := by
  refine ⟨rfl, rfl, fun q => rfl, rfl, ?_, ?_⟩
  · intro s t hs hp
    simp [_to_unix, hs, hp]
  · intro s hs hp
    simp [_to_unix, hs, hp]

theorem C7_to_unix_normalizer_witness :
    _to_unix dtparseConst (.tstr "2024-01-01") = .ok 1704067200 :=
  (C7_to_unix_normalizer dtparseConst).2.2.2.2.1 "2024-01-01" 1704067200
    (by decide) rfl

/-- C8 (amended): a provided non-empty `since`/`until` string is passed
through the time normalizer and included as the corresponding query
parameter (a parse failure propagating), but a provided empty string is
falsy in the `if since:` guard and is treated exactly like an absent
bound: no parameter is included. -/
theorem C8_time_bounds_params (dtparse : String → Option ℚ) (q : String)
    (limit : Int) :
    (∀ (str : String) (t : ℚ) (u : Option String) (p : SParams), str ≠ "" →
      dtparse str = some t →
      searchParams dtparse q limit (some str) u = .ok p →
      p.since = some (truncQ t)) ∧
    (∀ (s : Option String) (str : String) (t : ℚ) (p : SParams), str ≠ "" →
      dtparse str = some t →
      searchParams dtparse q limit s (some str) = .ok p →
      p.until' = some (truncQ t)) ∧
    (∀ (u : Option String) (p : SParams),
      searchParams dtparse q limit (some "") u = .ok p → p.since = none) ∧
    (∀ (s : Option String) (p : SParams),
      searchParams dtparse q limit s (some "") = .ok p → p.until' = none) ∧
    (∀ str : String, str ≠ "" → dtparse str = none →
      searchParams dtparse q limit (some str) none = .error "ParseError") := by
  refine ⟨?_, ?_, ?_, ?_, ?_⟩
  · intro str t u p hs hp h
    have hf := (searchParams_ok_fields dtparse q limit (some str) u p h).2.2.1
    simp [timeParam, hs, _to_unix, hp, Except.map] at hf
    exact hf.symm
  · intro s str t p hs hp h
    have hf := (searchParams_ok_fields dtparse q limit s (some str) p h).2.2.2
    simp [timeParam, hs, _to_unix, hp, Except.map] at hf
    exact hf.symm
  · intro u p h
    have hf := (searchParams_ok_fields dtparse q limit (some "") u p h).2.2.1
    simp [timeParam] at hf
    exact hf.symm
  · intro s p h
    have hf := (searchParams_ok_fields dtparse q limit s (some "") p h).2.2.2
    simp [timeParam] at hf
    exact hf.symm
  · intro str hs hp
    rw [searchParams_eq]
    simp [timeParam, hs, _to_unix, hp, Except.map]

theorem C8_time_bounds_params_witness :
    ({ q := "kw", limit := 100, since := some 1704067200, until' := none } :
        SParams).since = some 1704067200 :=
  (C8_time_bounds_params dtparseConst "kw" 100).1 "2024-01-01" 1704067200 none
    { q := "kw", limit := 100, since := some 1704067200, until' := none }
    (by decide) rfl rfl

/-- C8's original wording fails on the code: with `since` provided as the
empty string — a value the normalizer itself maps to 0 — the params are
built with no `since` bound at all, because Python's `if since:` guard
treats `""` as absent. -/
theorem C8_counterexample_empty_since :
    _to_unix dtparseConst (.tstr "") = .ok 0 ∧
    searchParams dtparseConst "kw" 100 (some "") none =
      .ok { q := "kw", limit := 100, since := none, until' := none } := by
  exact ⟨rfl, rfl⟩

theorem jget?_append_ne (r : Item) (k f : String) (v : JVal) (hne : ¬ k = f) :
    jget? (r ++ [(k, v)]) f = jget? r f := by
  induction r with
  | nil => simp [jget?, List.find?, hne]
  | cons p ps ih =>
      by_cases hp : p.1 = f
      · simp [jget?, List.find?, hp]
      · unfold jget? at ih ⊢
        rw [List.cons_append, List.find?_cons_of_neg _ (by simp [hp]),
          List.find?_cons_of_neg _ (by simp [hp])]
        exact ih

/-- C9: the CSV export writes a header with exactly the 8 fixed columns
in order (so an empty result is exactly the header row), every data row
renders exactly those 8 cells, a missing field gives an empty cell (the
remaining columns keeping their place), and an extra field on a post
changes nothing in the output — no extra column or row. -/
theorem C9_csv_fixed_columns (r : Item) (k : String) (v : JVal) :
    api_export_csv [] =
      "id,permalink,text,username,like_count,reply_count,repost_count,created_time\r\n" ∧
    (csvFields.map (csvCell r)).length = 8 ∧
    (∀ f, jget? r f = none → csvCell r f = "") ∧
    (k ∉ csvFields → api_export_csv [r ++ [(k, v)]] = api_export_csv [r]) := by
  refine ⟨by rfl, by simp [csvFields], ?_, ?_⟩
  · intro f hf
    unfold csvCell
    rw [hf]
    rfl
  · intro hk
    have hcells : csvFields.map (csvCell (r ++ [(k, v)])) =
        csvFields.map (csvCell r) := by
      apply List.map_congr_left
      intro f hf
      have hne : ¬ k = f := fun heq => hk (heq ▸ hf)
      unfold csvCell
      rw [jget?_append_ne r k f v hne]
    simp [api_export_csv, hcells]

theorem C9_csv_fixed_columns_witness :
    api_export_csv [[("id", JVal.jstr "1"), ("zzz", JVal.jint 9)]] =
      api_export_csv [[("id", JVal.jstr "1")]] := by
  have h := (C9_csv_fixed_columns [("id", JVal.jstr "1")] "zzz"
    (JVal.jint 9)).2.2.2 (by decide)
  simpa using h

end ThreadsApp
